import Mathlib

/-!
Verification of the shellob interpreter core (src/main.rs): the line
tokenizer (Shell::tokenize) and the command-dispatch/redirection engine
(Shell::handle_command), shallowly embedded in Lean.

Conventions of the embedding:
* Rust strings are Lean `String`s; the tokenizer works over `List Char`,
  matching `input.chars()`.
* The OS-facing collaborators (PATH variable, file-existence test, file
  creation, directory change, child processes) are fields of an `Env`
  record, mirroring the external collaborators of the design.
* Side effects are reified: `Effects` records the chunks written to
  stdout/stderr (println adds a trailing newline), the files
  created/truncated, the file writes, directory changes, and external
  process launches.  `HandleResult.crash` models a Rust panic aborting
  the process, `HandleResult.exited` models `std::process::exit(0)`.
-/

namespace Shellob

/-- Scanner mode for the tokenizer.  `Shell::tokenize` (main.rs:66-123) is an
outer `while` loop with two nested inner loops, one for a single-quoted
region (main.rs:73-81) and one for a double-quoted region (main.rs:82-101);
the mode records which loop the scanner currently sits in. -/
inductive Mode
  | normal
  | single
  | double
  deriving Repr, DecidableEq

/-- Shallow embedding of `Shell::tokenize` (main.rs:66-123).  `cur` is the
`current` pending-token buffer.  The inner `while` loops of the Rust code
become the `single`/`double` modes; a backslash with no following character
pushes nothing, after which the loop exhausts the input and flushes the
buffer, hence the inlined flush in the two `'\\' :: []` cases. -/
def tokenizeGo : Mode → List Char → List Char → List String
  | _, [], cur => if cur = [] then [] else [String.mk cur]
  | Mode.normal, c :: cs, cur =>
    if c = '\'' then tokenizeGo Mode.single cs cur
    else if c = '"' then tokenizeGo Mode.double cs cur
    else if c = '\\' then
      match cs with
      | [] => if cur = [] then [] else [String.mk cur]
      | n :: cs2 => tokenizeGo Mode.normal cs2 (cur ++ [n])
    else if c = ' ' then
      if cur = [] then tokenizeGo Mode.normal cs []
      else String.mk cur :: tokenizeGo Mode.normal cs []
    else tokenizeGo Mode.normal cs (cur ++ [c])
  | Mode.single, c :: cs, cur =>
    if c = '\'' then tokenizeGo Mode.normal cs cur
    else tokenizeGo Mode.single cs (cur ++ [c])
  | Mode.double, c :: cs, cur =>
    if c = '"' then tokenizeGo Mode.normal cs cur
    else if c = '\\' then
      match cs with
      | [] => if cur = [] then [] else [String.mk cur]
      | n :: cs2 =>
        if n = '\\' ∨ n = '$' ∨ n = '"' ∨ n = '\n' then
          tokenizeGo Mode.double cs2 (cur ++ [n])
        else
          tokenizeGo Mode.double cs2 (cur ++ ['\\', n])
    else tokenizeGo Mode.double cs (cur ++ [c])

/-- `Shell::tokenize` applied to a whole input string. -/
def tokenize (s : String) : List String :=
  tokenizeGo Mode.normal s.data []

/-! ## Dispatcher: redirection scan -/

/-- The redirection scan of `Shell::handle_command` (main.rs:131-143): walk
the tokens left to right; at the first token equal to `>` or `1>`, stop; if
a token follows, the result is its index together with that following token
(the target filename), otherwise the loop `break`s leaving the defaults
(no redirection). -/
def redirScan : List String → Option (Nat × String)
  | [] => none
  | t :: rest =>
    if t = ">" ∨ t = "1>" then
      match rest with
      | f :: _ => some (0, f)
      | [] => none
    else (redirScan rest).map (fun p => (p.1 + 1, p.2))

/-- `cmd_end` of main.rs:132/138: the index of the honored redirection
operator, or the token count when no redirection applies. -/
def cmdEnd (tokens : List String) : Nat :=
  match redirScan tokens with
  | some p => p.1
  | none => tokens.length

/-- `output_file` of main.rs:133/139. -/
def outputFile (tokens : List String) : Option String :=
  (redirScan tokens).map (fun p => p.2)

/-- The argument span `&tokens[1..cmd_end]` (main.rs:146), in the
non-panicking case `1 ≤ cmd_end`. -/
def argSpan (tokens : List String) : List String :=
  (tokens.drop 1).take (cmdEnd tokens - 1)

/-! ## Dispatcher: environment, builtins, effects -/

/-- Outcome of `cmd.output()` (main.rs:177): either the child ran and its
captured stdout/stderr bytes are returned, or spawning failed with a
diagnostic message. -/
inductive RunResult
  | ok (stdout stderr : String)
  | failed (msg : String)
  deriving Repr, DecidableEq

/-- The OS-facing collaborators of the dispatcher.  `path` is
`env::var("PATH").ok()`; `isFile` is `Path::new(p).is_file()`; `createOk`
tells whether `File::create` succeeds for a path; `writeOk`/`writeErr`
model the `writeln!` outcome and its io-error text; `chdir` models
`env::set_current_dir` (`none` = success, `some e` = the error text);
`run` models `cmd.output()`. -/
structure Env where
  path : Option String
  isFile : String → Bool
  createOk : String → Bool
  writeOk : String → Bool
  writeErr : String → String
  chdir : String → Option String
  run : String → List String → RunResult

/-- `Shell::find_in_path` (main.rs:60-64): split PATH on `:`, form
`dir/command` for each directory, return the first that is a regular
file. -/
def find_in_path (env : Env) (command : String) : Option String :=
  match env.path with
  | none => none
  | some p => ((p.splitOn ":").map (fun dir => dir ++ "/" ++ command)).find? env.isFile

/-- The four builtins registered in `Shell::new` (main.rs:18-58). -/
inductive Builtin
  | cd
  | echo
  | exit
  | typeCmd
  deriving Repr, DecidableEq

/-- Lookup in the builtin registry, `self.commands.get(command)`
(main.rs:148).  The `HashMap` is populated once with exactly these four
names; lookup is exact and case-sensitive. -/
def lookupBuiltin (name : String) : Option Builtin :=
  if name = "cd" then some Builtin.cd
  else if name = "echo" then some Builtin.echo
  else if name = "exit" then some Builtin.exit
  else if name = "type" then some Builtin.typeCmd
  else none

/-- The side effects of one builtin handler invocation.  `out`/`err` hold
the chunks written to stdout/stderr (`println!`/`eprintln!` append the
trailing newline); `cwd` records successful directory changes; `exited`
records that `std::process::exit(0)` was reached. -/
structure BEffect where
  out : List String := []
  err : List String := []
  cwd : List String := []
  exited : Bool := false
  deriving Repr, DecidableEq

/-- `arg.split_whitespace().peekable().peek().map_or("/", |x| *x)` of the
cd builtin (main.rs:22). -/
def firstWord (arg : String) : String :=
  match (arg.split Char.isWhitespace).filter (fun w => w ≠ "") with
  | [] => "/"
  | w :: _ => w

/-- The cd builtin closure (main.rs:21-27). -/
def cdRun (env : Env) (arg : String) : BEffect :=
  match env.chdir (firstWord arg) with
  | none => { cwd := [firstWord arg] }
  | some e => { err := [e ++ "\n"] }

/-- The echo builtin closure (main.rs:29-31). -/
def echoRun (arg : String) : BEffect := { out := [arg ++ "\n"] }

/-- The exit builtin closure (main.rs:33-38): argument `"0"` terminates the
process; any other argument is reported as invalid on stdout. -/
def exitRun (arg : String) : BEffect :=
  if arg = "0" then { exited := true }
  else { out := [arg ++ ": invalid argument\n"] }

/-- The type builtin closure (main.rs:40-55). -/
def typeRun (env : Env) (arg : String) : BEffect :=
  if arg = "" then { out := ["type: not enough arguments\n"] }
  else if arg = "cd" ∨ arg = "echo" ∨ arg = "exit" ∨ arg = "type" then
    { out := [arg ++ " is a shellob builtin\n"] }
  else
    match find_in_path env arg with
    | some p => { out := [arg ++ " is " ++ p ++ "\n"] }
    | none => { out := [arg ++ ": not found\n"] }

/-- Dispatch on the stored function pointer. -/
def runBuiltin (env : Env) : Builtin → String → BEffect
  | Builtin.cd, arg => cdRun env arg
  | Builtin.echo, arg => echoRun arg
  | Builtin.exit, arg => exitRun arg
  | Builtin.typeCmd, arg => typeRun env arg

/-- All side effects of one dispatch: stdout chunks, stderr chunks, files
created/truncated by `File::create`, contents written to files by the
dispatcher itself, directory changes, and external process launches
(path, argument vector, stdout redirection target). -/
structure Effects where
  out : List String := []
  err : List String := []
  created : List String := []
  fileWrites : List (String × String) := []
  cwd : List String := []
  launched : List (String × List String × Option String) := []
  deriving Repr, DecidableEq

/-- Result of one `handle_command` invocation.  `crash` models a Rust
panic aborting the interpreter process; `exited` models process
termination through `std::process::exit(0)`; `done` is a normal return to
the read loop. -/
inductive HandleResult
  | crash
  | exited (eff : Effects)
  | done (eff : Effects)
  deriving Repr, DecidableEq

/-- The effects carried by a result (a crash aborts before any effect). -/
def HandleResult.effects : HandleResult → Effects
  | HandleResult.crash => {}
  | HandleResult.exited e => e
  | HandleResult.done e => e

/-- Shallow embedding of the dispatch part of `Shell::handle_command`
(main.rs:127-191), taking the already-produced token sequence.

`&tokens[1..cmd_end]` (main.rs:146) panics whenever `cmd_end < 1`; with a
non-empty token list that happens exactly when `cmd_end = 0`, i.e. when the
first token is itself `>` or `1>` and a token follows it.  That case is
`HandleResult.crash`.

In the builtin-with-redirection branch (main.rs:152-156) the handler is
never called: the joined argument span is written to the file, a failed
`File::create` is silently ignored, and a failed `writeln!` is reported.
In the external branch (main.rs:162-187) a failed `File::create` is
reported with a fixed message and the command is not launched; on launch
the child's stdout is printed only when not redirected, and its stderr is
relayed after rewriting `path: ` prefixes to `command: `. -/
def handle (env : Env) (tokens : List String) : HandleResult :=
  match tokens with
  | [] => HandleResult.done {}
  | command :: rest =>
    if cmdEnd (command :: rest) = 0 then HandleResult.crash
    else
      let arguments := argSpan (command :: rest)
      match lookupBuiltin command with
      | some b =>
        match outputFile (command :: rest) with
        | some f =>
          if env.createOk f then
            if env.writeOk f then
              HandleResult.done { created := [f],
                                  fileWrites := [(f, String.intercalate " " arguments ++ "\n")] }
            else
              HandleResult.done { created := [f],
                                  err := ["Error writing to file: " ++ env.writeErr f ++ "\n"] }
          else HandleResult.done {}
        | none =>
          let e := runBuiltin env b (String.intercalate " " arguments)
          if e.exited then HandleResult.exited { out := e.out, err := e.err, cwd := e.cwd }
          else HandleResult.done { out := e.out, err := e.err, cwd := e.cwd }
      | none =>
        match find_in_path env command with
        | some path =>
          match outputFile (command :: rest) with
          | some f =>
            if env.createOk f then
              match env.run path arguments with
              | RunResult.ok _ serr =>
                HandleResult.done { created := [f],
                                    launched := [(path, arguments, some f)],
                                    err := [serr.replace (path ++ ": ") (command ++ ": ")] }
              | RunResult.failed m =>
                HandleResult.done { created := [f],
                                    launched := [(path, arguments, some f)],
                                    err := ["Error executing command: " ++ m ++ "\n"] }
            else HandleResult.done { err := ["Error: Could not create output file\n"] }
          | none =>
            match env.run path arguments with
            | RunResult.ok sout serr =>
              HandleResult.done { out := [sout],
                                  launched := [(path, arguments, none)],
                                  err := [serr.replace (path ++ ": ") (command ++ ": ")] }
            | RunResult.failed m =>
              HandleResult.done { launched := [(path, arguments, none)],
                                  err := ["Error executing command: " ++ m ++ "\n"] }
        | none => HandleResult.done { out := [command ++ ": command not found\n"] }

/-- `Shell::handle_command` (main.rs:125-191): tokenize, then dispatch. -/
def handle_command (env : Env) (input : String) : HandleResult :=
  handle env (tokenize input)

/-- A concrete environment: no PATH variable, no files, file creation and
writes succeed, directory changes succeed, children exit silently. -/
def env0 : Env where
  path := none
  isFile := fun _ => false
  createOk := fun _ => true
  writeOk := fun _ => true
  writeErr := fun _ => ""
  chdir := fun _ => none
  run := fun _ _ => RunResult.ok "" ""

/-- Like `env0`, but every `File::create` fails. -/
def envNoCreate : Env :=
  { env0 with createOk := fun _ => false }

/-! ## Tokenizer lemmas -/

/-- End of input flushes the pending buffer if non-empty (main.rs:118-120). -/
theorem tokenizeGo_flush (m : Mode) (cur : List Char) :
    tokenizeGo m [] cur = if cur = [] then [] else [String.mk cur] := by
  cases m <;> rfl

/-- A single quote in normal mode enters the single-quoted region. -/
theorem tokenizeGo_normal_squote (cs cur : List Char) :
    tokenizeGo Mode.normal ('\'' :: cs) cur = tokenizeGo Mode.single cs cur := by
  rw [tokenizeGo.eq_def]
  simp

/-- A double quote in normal mode enters the double-quoted region. -/
theorem tokenizeGo_normal_dquote (cs cur : List Char) :
    tokenizeGo Mode.normal ('"' :: cs) cur = tokenizeGo Mode.double cs cur := by
  rw [tokenizeGo.eq_def]
  simp

/-- A trailing bare backslash contributes nothing (main.rs:102-107). -/
theorem tokenizeGo_normal_bs_nil (cur : List Char) :
    tokenizeGo Mode.normal ['\\'] cur = if cur = [] then [] else [String.mk cur] := rfl

/-- A bare backslash escapes exactly the next character: the backslash is
dropped and the character copied whatever it is (main.rs:102-107). -/
theorem tokenizeGo_normal_bs (n : Char) (cs2 cur : List Char) :
    tokenizeGo Mode.normal ('\\' :: n :: cs2) cur =
      tokenizeGo Mode.normal cs2 (cur ++ [n]) := rfl

/-- A space flushes the pending buffer when non-empty (main.rs:108-113). -/
theorem tokenizeGo_normal_space (cs cur : List Char) :
    tokenizeGo Mode.normal (' ' :: cs) cur =
      if cur = [] then tokenizeGo Mode.normal cs []
      else String.mk cur :: tokenizeGo Mode.normal cs [] := by
  rw [tokenizeGo.eq_def]
  simp

/-- Any other character in normal mode is appended to the buffer. -/
theorem tokenizeGo_normal_other (c : Char) (cs cur : List Char)
    (h1 : c ≠ '\'') (h2 : c ≠ '"') (h3 : c ≠ '\\') (h4 : c ≠ ' ') :
    tokenizeGo Mode.normal (c :: cs) cur = tokenizeGo Mode.normal cs (cur ++ [c]) := by
  rw [tokenizeGo.eq_def]
  simp [h1, h2, h3, h4]

/-- A single quote closes the single-quoted region (main.rs:76-78). -/
theorem tokenizeGo_single_quote (cs cur : List Char) :
    tokenizeGo Mode.single ('\'' :: cs) cur = tokenizeGo Mode.normal cs cur := by
  rw [tokenizeGo.eq_def]
  simp

/-- Inside single quotes every other character is copied verbatim
(main.rs:79). -/
theorem tokenizeGo_single_other (c : Char) (cs cur : List Char) (h : c ≠ '\'') :
    tokenizeGo Mode.single (c :: cs) cur = tokenizeGo Mode.single cs (cur ++ [c]) := by
  rw [tokenizeGo.eq_def]
  simp [h]

/-- A double quote closes the double-quoted region (main.rs:86). -/
theorem tokenizeGo_double_quote (cs cur : List Char) :
    tokenizeGo Mode.double ('"' :: cs) cur = tokenizeGo Mode.normal cs cur := by
  rw [tokenizeGo.eq_def]
  simp

/-- A backslash at end of input inside double quotes contributes nothing. -/
theorem tokenizeGo_double_bs_nil (cur : List Char) :
    tokenizeGo Mode.double ['\\'] cur = if cur = [] then [] else [String.mk cur] := rfl

/-- A backslash inside a double-quoted region: the four recognized escape
pairs collapse to the escaped character, every other pair is kept with the
backslash retained (main.rs:87-97). -/
theorem tokenizeGo_double_backslash (c : Char) (rest cur : List Char) :
    tokenizeGo Mode.double ('\\' :: c :: rest) cur =
      if c = '\\' ∨ c = '$' ∨ c = '"' ∨ c = '\n' then
        tokenizeGo Mode.double rest (cur ++ [c])
      else tokenizeGo Mode.double rest (cur ++ ['\\', c]) := rfl

/-- Inside double quotes any other character is copied verbatim
(main.rs:98). -/
theorem tokenizeGo_double_other (c : Char) (cs cur : List Char)
    (h1 : c ≠ '"') (h2 : c ≠ '\\') :
    tokenizeGo Mode.double (c :: cs) cur = tokenizeGo Mode.double cs (cur ++ [c]) := by
  rw [tokenizeGo.eq_def]
  simp [h1, h2]

/-- A non-empty buffer flushes to a non-empty token. -/
theorem mk_ne_empty {cur : List Char} (h : cur ≠ []) : String.mk cur ≠ "" := by
  intro he
  exact h (congrArg String.data he)

/-- Tokens produced by the end-of-input flush are non-empty. -/
theorem flush_ne_empty (cur : List Char) (t : String)
    (ht : t ∈ (if cur = [] then ([] : List String) else [String.mk cur])) : t ≠ "" := by
  by_cases h : cur = []
  · simp [h] at ht
  · simp [h] at ht
    subst ht
    exact mk_ne_empty h

/-- A single-quoted region closed by a quote copies its content verbatim
into the buffer and returns to normal mode (main.rs:73-81). -/
theorem tokenizeGo_single_closed (l : List Char) (rest cur : List Char) (h : '\'' ∉ l) :
    tokenizeGo Mode.single (l ++ '\'' :: rest) cur = tokenizeGo Mode.normal rest (cur ++ l) := by
  induction l generalizing cur with
  | nil => simp [tokenizeGo_single_quote]
  | cons c cs ih =>
    have hc : c ≠ '\'' := fun h2 => h (h2 ▸ List.mem_cons_self c cs)
    have hcs : '\'' ∉ cs := fun h2 => h (List.mem_cons_of_mem c h2)
    rw [List.cons_append, tokenizeGo_single_other c _ cur hc, ih (cur ++ [c]) hcs]
    simp

/-- An unterminated single-quoted region silently consumes to end of input
and flushes the buffer. -/
theorem tokenizeGo_single_all (l cur : List Char) (h : '\'' ∉ l) :
    tokenizeGo Mode.single l cur =
      if cur ++ l = [] then [] else [String.mk (cur ++ l)] := by
  induction l generalizing cur with
  | nil => simp [tokenizeGo_flush]
  | cons c cs ih =>
    have hc : c ≠ '\'' := fun h2 => h (h2 ▸ List.mem_cons_self c cs)
    have hcs : '\'' ∉ cs := fun h2 => h (List.mem_cons_of_mem c h2)
    rw [tokenizeGo_single_other c cs cur hc, ih (cur ++ [c]) hcs]
    simp

/-- Every token the scanner ever emits, in any mode and from any pending
buffer, is a non-empty string: tokens are pushed only under an explicit
`!current.is_empty()` guard (main.rs:109, 118). -/
theorem tokenizeGo_ne_empty : ∀ (m : Mode) (l cur : List Char) (t : String),
    t ∈ tokenizeGo m l cur → t ≠ ""
  | m, [], cur, t => by
    intro ht
    rw [tokenizeGo_flush] at ht
    exact flush_ne_empty cur t ht
  | Mode.normal, c :: cs, cur, t => by
    intro ht
    by_cases h1 : c = '\''
    · subst h1
      rw [tokenizeGo_normal_squote] at ht
      exact tokenizeGo_ne_empty Mode.single cs cur t ht
    · by_cases h2 : c = '"'
      · subst h2
        rw [tokenizeGo_normal_dquote] at ht
        exact tokenizeGo_ne_empty Mode.double cs cur t ht
      · by_cases h3 : c = '\\'
        · subst h3
          cases cs with
          | nil =>
            rw [tokenizeGo_normal_bs_nil] at ht
            exact flush_ne_empty cur t ht
          | cons n cs2 =>
            rw [tokenizeGo_normal_bs] at ht
            exact tokenizeGo_ne_empty Mode.normal cs2 (cur ++ [n]) t ht
        · by_cases h4 : c = ' '
          · subst h4
            rw [tokenizeGo_normal_space] at ht
            by_cases h5 : cur = []
            · rw [if_pos h5] at ht
              exact tokenizeGo_ne_empty Mode.normal cs [] t ht
            · rw [if_neg h5] at ht
              rcases List.mem_cons.mp ht with h6 | h6
              · subst h6; exact mk_ne_empty h5
              · exact tokenizeGo_ne_empty Mode.normal cs [] t h6
          · rw [tokenizeGo_normal_other c cs cur h1 h2 h3 h4] at ht
            exact tokenizeGo_ne_empty Mode.normal cs (cur ++ [c]) t ht
  | Mode.single, c :: cs, cur, t => by
    intro ht
    by_cases h1 : c = '\''
    · subst h1
      rw [tokenizeGo_single_quote] at ht
      exact tokenizeGo_ne_empty Mode.normal cs cur t ht
    · rw [tokenizeGo_single_other c cs cur h1] at ht
      exact tokenizeGo_ne_empty Mode.single cs (cur ++ [c]) t ht
  | Mode.double, c :: cs, cur, t => by
    intro ht
    by_cases h1 : c = '"'
    · subst h1
      rw [tokenizeGo_double_quote] at ht
      exact tokenizeGo_ne_empty Mode.normal cs cur t ht
    · by_cases h2 : c = '\\'
      · subst h2
        cases cs with
        | nil =>
          rw [tokenizeGo_double_bs_nil] at ht
          exact flush_ne_empty cur t ht
        | cons n cs2 =>
          rw [tokenizeGo_double_backslash] at ht
          by_cases h3 : n = '\\' ∨ n = '$' ∨ n = '"' ∨ n = '\n'
          · rw [if_pos h3] at ht
            exact tokenizeGo_ne_empty Mode.double cs2 (cur ++ [n]) t ht
          · rw [if_neg h3] at ht
            exact tokenizeGo_ne_empty Mode.double cs2 (cur ++ ['\\', n]) t ht
      · rw [tokenizeGo_double_other c cs cur h1 h2] at ht
        exact tokenizeGo_ne_empty Mode.double cs (cur ++ [c]) t ht

/-! ## Claims about the tokenizer -/

/-- C4 (counterexample): the tab character is whitespace, yet `tokenize`
applied to a tab-only input returns a non-empty sequence — only the space
character `' '` separates tokens (main.rs:108), so an all-whitespace input
need not tokenize to the empty sequence. -/
theorem C4_counterexample :
    "\t".data.all Char.isWhitespace = true ∧
    tokenize "\t" = ["\t"] ∧ tokenize "\t" ≠ [] := by
  refine ⟨rfl, by decide, by decide⟩

/-- Normal-mode scan of a run of spaces with an empty pending buffer emits
nothing. -/
theorem spacesOnly_aux : ∀ (l : List Char), (∀ c ∈ l, c = ' ') →
    tokenizeGo Mode.normal l [] = []
  | [], _ => rfl
  | c :: cs, h => by
    have hc : c = ' ' := h c (List.mem_cons_self c cs)
    subst hc
    rw [tokenizeGo_normal_space, if_pos rfl]
    exact spacesOnly_aux cs (fun d hd => h d (List.mem_cons_of_mem _ hd))

/-- C4 (amended): `tokenize` is a total function of the input string, and
it returns the empty sequence for every input that is empty or consists
only of space characters `' '`. -/
theorem C4_spaces_only_empty (s : String) (h : ∀ c ∈ s.data, c = ' ') :
    tokenize s = [] :=
  spacesOnly_aux s.data h

/-- C4 witness: the amended theorem applied to a concrete all-space
input. -/
theorem C4_witness : tokenize "   " = [] :=
  C4_spaces_only_empty "   " (by decide)

/-- C5 (counterexample): the single-quoted empty string is an input
consisting only of single-quoted text, yet `tokenize` returns zero tokens
rather than exactly one — the empty buffer is never flushed
(main.rs:118-120). -/
theorem C5_counterexample :
    tokenize ("'" ++ "" ++ "'") = [] ∧
    (tokenize ("'" ++ "" ++ "'")).length ≠ 1 := by
  refine ⟨rfl, by decide⟩

/-- C5 (amended): for every input consisting of a single-quoted region with
non-empty quoted content, `tokenize` returns exactly one token equal to the
quoted content verbatim — spaces, backslashes and double quotes included
and no escape processing applied — and a region left unterminated at end of
input is consumed to the end with the same result and no error. -/
theorem C5_single_quotes_verbatim (c : String)
    (h1 : '\'' ∉ c.data) (h2 : c ≠ "") :
    tokenize ("'" ++ c ++ "'") = [c] ∧ tokenize ("'" ++ c) = [c] := by
  have hq : ("'" : String).data = ['\''] := rfl
  have hd : c.data ≠ [] := by
    intro hn
    apply h2
    cases c
    simp at hn
    simp [hn]
  constructor
  · have he : ("'" ++ c ++ "'").data = '\'' :: (c.data ++ '\'' :: []) := by
      rw [String.data_append, String.data_append, hq]
      rfl
    rw [tokenize, he, tokenizeGo_normal_squote,
      tokenizeGo_single_closed c.data [] [] h1, tokenizeGo_flush]
    simp [hd]
  · have he : ("'" ++ c).data = '\'' :: c.data := by
      rw [String.data_append, hq]
      rfl
    rw [tokenize, he, tokenizeGo_normal_squote,
      tokenizeGo_single_all c.data [] h1]
    simp [hd]

/-- C5 witness: the amended theorem applied at the spec's own example,
the input consisting of `a b"c` in single quotes. -/
theorem C5_witness : tokenize ("'" ++ "a b\"c" ++ "'") = ["a b\"c"] :=
  (C5_single_quotes_verbatim "a b\"c" (by decide) (by decide)).1

/-- C6: inside a double-quoted region exactly the four escape pairs
backslash-backslash, backslash-dollar, backslash-double-quote and
backslash-newline collapse to the escaped character alone, and a backslash
followed by any other character is kept as a literal two-character
sequence; in particular the input `"a\nb"` with a literal backslash-n
tokenizes to the single token `a\nb` (main.rs:82-101). -/
theorem C6_double_quote_escapes (c : Char) :
    (∀ rest cur : List Char,
      tokenizeGo Mode.double ('\\' :: c :: rest) cur =
        if c = '\\' ∨ c = '$' ∨ c = '"' ∨ c = '\n' then
          tokenizeGo Mode.double rest (cur ++ [c])
        else tokenizeGo Mode.double rest (cur ++ ['\\', c])) ∧
    tokenize (String.mk ['"', '\\', c, '"']) =
      (if c = '\\' ∨ c = '$' ∨ c = '"' ∨ c = '\n' then [String.mk [c]]
       else [String.mk ['\\', c]]) ∧
    tokenize "\"a\\nb\"" = ["a\\nb"] := by
  refine ⟨fun rest cur => tokenizeGo_double_backslash c rest cur, ?_, by decide⟩
  by_cases h : c = '\\' ∨ c = '$' ∨ c = '"' ∨ c = '\n'
  · rcases h with h | h | h | h <;> subst h <;> decide
  · rw [if_neg h, tokenize,
      show (String.mk ['"', '\\', c, '"']).data = '"' :: '\\' :: c :: '"' :: [] from rfl,
      tokenizeGo_normal_dquote, tokenizeGo_double_backslash, if_neg h,
      tokenizeGo_double_quote, tokenizeGo_flush]
    simp

/-- C10: every token produced by `tokenize` is a non-empty string — tokens
are only pushed under the `!current.is_empty()` guards (main.rs:109, 118)
— and in particular a quoted empty string contributes no token at all, so
`echo '' x` tokenizes to `echo`, `x` with no empty-string argument. -/
theorem C10_tokens_nonempty :
    (∀ (s : String), ∀ t ∈ tokenize s, t ≠ "") ∧
    tokenize "echo '' x" = ["echo", "x"] := by
  refine ⟨fun s t ht => tokenizeGo_ne_empty Mode.normal s.data [] t ht, by decide⟩

/-- C10 witness: the universally quantified part applied at a concrete
input and token. -/
theorem C10_witness : ("x" : String) ≠ "" :=
  C10_tokens_nonempty.1 "echo '' x" "x" (by decide)

/-! ## Redirection-scan lemmas -/

/-- Scan step across a non-operator token. -/
theorem redirScan_cons_not_op (t : String) (rest : List String)
    (h : ¬(t = ">" ∨ t = "1>")) :
    redirScan (t :: rest) = (redirScan rest).map (fun p => (p.1 + 1, p.2)) := by
  rw [redirScan.eq_def]
  simp [h]

/-- An operator as the last token: the loop breaks with the defaults
untouched (main.rs:137-141). -/
theorem redirScan_cons_op_nil (t : String) (h : t = ">" ∨ t = "1>") :
    redirScan [t] = none := by
  rw [redirScan.eq_def]
  simp [h]

/-- An operator with a following token: that token is the target. -/
theorem redirScan_cons_op (t f : String) (rest : List String)
    (h : t = ">" ∨ t = "1>") :
    redirScan (t :: f :: rest) = some (0, f) := by
  rw [redirScan.eq_def]
  simp [h]

/-- A token list without a redirection operator scans to no redirection. -/
theorem redirScan_no_op : ∀ (tokens : List String),
    (∀ t ∈ tokens, ¬(t = ">" ∨ t = "1>")) → redirScan tokens = none
  | [], _ => rfl
  | t :: rest, h => by
    have ht := h t (List.mem_cons_self t rest)
    rw [redirScan_cons_not_op t rest ht,
      redirScan_no_op rest (fun u hu => h u (List.mem_cons_of_mem _ hu))]
    rfl

/-- The scan is determined by the first operator occurrence: if the token
at index `i` is the first `>`/`1>`, the scan yields `(i, following token)`
when a token follows and nothing when the operator is last. -/
theorem redirScan_first_op : ∀ (tokens : List String) (i : Nat) (op : String),
    tokens[i]? = some op → (op = ">" ∨ op = "1>") →
    (∀ u ∈ tokens.take i, ¬(u = ">" ∨ u = "1>")) →
    ((∀ f, tokens[i + 1]? = some f → redirScan tokens = some (i, f)) ∧
     (tokens[i + 1]? = none → redirScan tokens = none))
  | [], i, op, hop, _, _ => by simp at hop
  | t :: rest, 0, op, hop, hisop, _ => by
    simp at hop
    subst hop
    constructor
    · intro f hf
      cases rest with
      | nil => simp at hf
      | cons f2 r2 =>
        simp at hf
        subst hf
        exact redirScan_cons_op t _ r2 hisop
    · intro hf
      cases rest with
      | nil => exact redirScan_cons_op_nil t hisop
      | cons f2 r2 => simp at hf
  | t :: rest, i + 1, op, hop, hisop, hfirst => by
    have ht : ¬(t = ">" ∨ t = "1>") := hfirst t (by simp)
    have ih := redirScan_first_op rest i op (by simpa using hop) hisop
      (fun u hu => hfirst u (by simpa using List.mem_cons_of_mem t hu))
    rw [redirScan_cons_not_op t rest ht]
    constructor
    · intro f hf
      rw [ih.1 f (by simpa using hf)]
      rfl
    · intro hf
      rw [ih.2 (by simpa using hf)]
      rfl

/-! ## Claims about the dispatcher -/

/-- C3: the redirection scan honors the first occurrence of the literal
token `>` or `1>`: when a token follows it, that token is the target and
the argument span ends at the operator (tokens after the filename are
ignored); when no operator occurs, or the first operator is the last
token, no redirection applies and the span is the full token tail. -/
theorem C3_redirect_scan (tokens : List String) :
    ((∀ t ∈ tokens, ¬(t = ">" ∨ t = "1>")) →
      cmdEnd tokens = tokens.length ∧ outputFile tokens = none) ∧
    (∀ i op, tokens[i]? = some op → (op = ">" ∨ op = "1>") →
      (∀ u ∈ tokens.take i, ¬(u = ">" ∨ u = "1>")) →
      ((∀ f, tokens[i + 1]? = some f →
        cmdEnd tokens = i ∧ outputFile tokens = some f) ∧
       (tokens[i + 1]? = none →
        cmdEnd tokens = tokens.length ∧ outputFile tokens = none))) := by
  constructor
  · intro h
    have hr := redirScan_no_op tokens h
    simp [cmdEnd, outputFile, hr]
  · intro i op hop hisop hfirst
    have h2 := redirScan_first_op tokens i op hop hisop hfirst
    constructor
    · intro f hf
      have hr := h2.1 f hf
      simp [cmdEnd, outputFile, hr]
    · intro hf
      have hr := h2.2 hf
      simp [cmdEnd, outputFile, hr]

/-- C3 witness: the scan applied to concrete tokens with a trailing ignored
token after the filename. -/
theorem C3_witness :
    cmdEnd ["echo", "hi", ">", "out", "x"] = 2 ∧
    outputFile ["echo", "hi", ">", "out", "x"] = some "out" :=
  ((C3_redirect_scan ["echo", "hi", ">", "out", "x"]).2 2 ">"
    (by decide) (by decide) (by decide)).1 "out" (by decide)

/-! ## Dispatch lemmas -/

/-- A registered builtin name is never a redirection operator. -/
theorem lookupBuiltin_not_op {name : String} {b : Builtin}
    (hb : lookupBuiltin name = some b) : ¬(name = ">" ∨ name = "1>") := by
  rintro (h | h) <;> subst h
  · exact Option.noConfusion (hb.symm.trans (show lookupBuiltin ">" = none from rfl))
  · exact Option.noConfusion (hb.symm.trans (show lookupBuiltin "1>" = none from rfl))

/-- Only the name `type` resolves to the type builtin. -/
theorem lookupBuiltin_typeCmd {name : String}
    (hb : lookupBuiltin name = some Builtin.typeCmd) : name = "type" := by
  unfold lookupBuiltin at hb
  split_ifs at hb with h1 h2 h3 h4 <;> first | exact h4 | simp at hb

/-- With a non-operator first token, `cmd_end` stays at least 1, so the
argument slice does not panic. -/
theorem cmdEnd_cons_ne_zero {t : String} (rest : List String)
    (h : ¬(t = ">" ∨ t = "1>")) : cmdEnd (t :: rest) ≠ 0 := by
  have h2 := redirScan_cons_not_op t rest h
  cases hr : redirScan rest with
  | none => simp [cmdEnd, h2, hr]
  | some p => simp [cmdEnd, h2, hr]

/-- `cmd_end` is zero exactly in the panicking situation: the only way to
avoid it is a first token that is not an operator immediately followed by
a further token. -/
theorem cmdEnd_ne_zero_of (name : String) (rest : List String)
    (h : ¬((name = ">" ∨ name = "1>") ∧ rest ≠ [])) : cmdEnd (name :: rest) ≠ 0 := by
  by_cases hop : name = ">" ∨ name = "1>"
  · have hrest : rest = [] := by
      by_contra hr
      exact h ⟨hop, hr⟩
    subst hrest
    simp [cmdEnd, redirScan_cons_op_nil name hop]
  · exact cmdEnd_cons_ne_zero rest hop

/-- C1: the spec promises that no condition is fatal to the interpreter
except `exit 0`, and that the exit builtin rejects other arguments without
terminating; the exit part holds, but dispatch aborts the process by a
slice panic (`&tokens[1..0]`, main.rs:146) whenever the first token is `>`
or `1>` followed by a further token — reachable from the real input
`> x`. -/
theorem C1_crash_on_leading_redirect :
    handle env0 [">", "x"] = HandleResult.crash ∧
    handle_command env0 "> x" = HandleResult.crash ∧
    handle env0 ["exit", "7"] =
      HandleResult.done { out := ["7: invalid argument\n"] } ∧
    handle env0 ["exit", "0"] = HandleResult.exited {} := by
  refine ⟨by decide, by decide, by decide, by decide⟩

/-- C2 (counterexample): with a redirection target recorded, the type
builtin's normal output is not what reaches the file — dispatch writes the
joined argument span instead (main.rs:152-156), so `type echo > f` stores
`echo`, not type's normal output `echo is a shellob builtin`. -/
theorem C2_counterexample :
    handle env0 ["type", "echo", ">", "f"] =
      HandleResult.done { created := ["f"], fileWrites := [("f", "echo\n")] } ∧
    handle env0 ["type", "echo"] =
      HandleResult.done { out := ["echo is a shellob builtin\n"] } ∧
    ("echo\n" : String) ≠ "echo is a shellob builtin\n" := by
  refine ⟨by decide, by decide, by decide⟩

/-- C2 (amended): for every command line whose first token resolves to a
builtin and for which a redirection target was recorded, dispatch creates
or truncates the target file and writes the space-joined argument span,
newline-terminated, to it, printing nothing to the terminal and never
invoking the builtin handler; for echo this coincides with the builtin's
normal output (tokens `echo hi > /tmp/out.txt` leave `hi` and a newline in
the file), but not for cd, exit or type. -/
theorem C2_redirect_writes_joined_args (env : Env) (name : String)
    (rest : List String) (b : Builtin) (f : String)
    (hb : lookupBuiltin name = some b)
    (hf : outputFile (name :: rest) = some f)
    (hc : env.createOk f = true) (hw : env.writeOk f = true) :
    handle env (name :: rest) =
      HandleResult.done { created := [f],
                          fileWrites := [(f, String.intercalate " " (argSpan (name :: rest)) ++ "\n")] } := by
  have hop := lookupBuiltin_not_op hb
  have hce := cmdEnd_cons_ne_zero rest hop
  simp only [handle]
  rw [if_neg hce, hb, hf]
  simp [hc, hw]

/-- C2 witness: the amended theorem at the spec's echo example. -/
theorem C2_witness :
    handle env0 ["echo", "hi", ">", "/tmp/out.txt"] =
      HandleResult.done { created := ["/tmp/out.txt"],
                          fileWrites := [("/tmp/out.txt", "hi\n")] } :=
  (C2_redirect_writes_joined_args env0 "echo" ["hi", ">", "/tmp/out.txt"]
    Builtin.echo "/tmp/out.txt" rfl rfl rfl rfl).trans (by decide)

/-- C7 (counterexample): when `File::create` fails for a builtin's
redirection target, nothing at all is reported — the failure is silently
swallowed (main.rs:153 has no else branch), contradicting the claim that
the failure is reported with the filename. -/
theorem C7_counterexample :
    handle envNoCreate ["echo", "hi", ">", "bad"] = HandleResult.done {} ∧
    (handle envNoCreate ["echo", "hi", ">", "bad"]).effects.err = [] ∧
    (handle envNoCreate ["echo", "hi", ">", "bad"]).effects.out = [] := by
  refine ⟨by decide, by decide, by decide⟩

/-- C7 (amended): when the redirection target cannot be created, the
command's normal output is discarded rather than falling back to the
terminal and dispatch continues without aborting; however, for a builtin
the failure is silently ignored with no report at all, and for an external
command it is reported with the fixed message `Error: Could not create
output file`, which does not contain the filename, and the command is not
launched. -/
theorem C7_create_failure_behavior (env : Env) (name f : String)
    (rest : List String)
    (hf : outputFile (name :: rest) = some f)
    (hc : env.createOk f = false)
    (hop : ¬(name = ">" ∨ name = "1>")) :
    ((lookupBuiltin name).isSome →
      handle env (name :: rest) = HandleResult.done {}) ∧
    (∀ p, lookupBuiltin name = none → find_in_path env name = some p →
      handle env (name :: rest) =
        HandleResult.done { err := ["Error: Could not create output file\n"] }) := by
  have hce := cmdEnd_cons_ne_zero rest hop
  constructor
  · intro hbs
    obtain ⟨b, hb⟩ := Option.isSome_iff_exists.mp hbs
    simp only [handle]
    rw [if_neg hce, hb, hf]
    simp [hc]
  · intro p hb hp
    simp only [handle]
    rw [if_neg hce, hb, hp, hf]
    simp [hc]

/-- C7 witness: the builtin half of the amended theorem at a concrete
input in the environment where every file creation fails. -/
theorem C7_witness :
    handle envNoCreate ["echo", "ok", ">", "f2"] = HandleResult.done {} :=
  (C7_create_failure_behavior envNoCreate "echo" "f2" ["ok", ">", "f2"]
    rfl rfl (by decide)).1 (by decide)

/-- C8 (counterexample): a token sequence whose first token matches no
builtin and no file on the search path can still fail to produce the
`command not found` line — with `1>` first and a token following, dispatch
panics before resolution (main.rs:146). -/
theorem C8_counterexample :
    handle env0 ["1>", "y"] = HandleResult.crash ∧
    lookupBuiltin "1>" = none ∧ find_in_path env0 "1>" = none := by
  refine ⟨by decide, by decide, by decide⟩

/-- C8 (amended): for every non-empty token sequence whose first token
matches no builtin and no regular file on the search path, and is not
itself `>`/`1>` followed by a further token (the slice-panic case of C1),
dispatch emits exactly the single line `name: command not found` and
returns with no other side effect. -/
theorem C8_command_not_found (env : Env) (name : String) (rest : List String)
    (hb : lookupBuiltin name = none)
    (hp : find_in_path env name = none)
    (hop : ¬((name = ">" ∨ name = "1>") ∧ rest ≠ [])) :
    handle env (name :: rest) =
      HandleResult.done { out := [name ++ ": command not found\n"] } := by
  have hce := cmdEnd_ne_zero_of name rest hop
  simp only [handle]
  rw [if_neg hce, hb, hp]

/-- C8 witness: the amended theorem at a concrete unknown command. -/
theorem C8_witness :
    handle env0 ["nosuch"] =
      HandleResult.done { out := ["nosuch: command not found\n"] } :=
  C8_command_not_found env0 "nosuch" [] rfl rfl (by decide)

/-- The builtins cd, echo and exit never consult the path resolver, and the
type builtin consults it only for argument names outside the registry — in
particular never for the name the builtin itself was resolved under. -/
theorem runBuiltin_congr (env env2 : Env) (b : Builtin) (name arg : String)
    (hb : lookupBuiltin name = some b)
    (hch : env.chdir = env2.chdir)
    (hfp : ∀ m, m ≠ name → find_in_path env m = find_in_path env2 m) :
    runBuiltin env b arg = runBuiltin env2 b arg := by
  cases b with
  | cd => simp [runBuiltin, cdRun, hch]
  | echo => rfl
  | exit => rfl
  | typeCmd =>
    have hname : name = "type" := lookupBuiltin_typeCmd hb
    subst hname
    simp only [runBuiltin, typeRun]
    by_cases h0 : arg = ""
    · simp [h0]
    · by_cases h4 : arg = "cd" ∨ arg = "echo" ∨ arg = "exit" ∨ arg = "type"
      · simp [h0, h4]
      · have hargne : arg ≠ "type" := fun he => h4 (Or.inr (Or.inr (Or.inr he)))
        rw [hfp arg hargne]

/-- C9: a first token naming a registered builtin is always dispatched to
the builtin: no external process is ever launched for it, and the whole
dispatch result is unchanged under any modification of the search-path
collaborator that keeps resolution of other names fixed — in particular a
same-named executable on the search path cannot shadow the builtin. -/
theorem C9_builtin_precedence (name : String) (b : Builtin)
    (rest : List String) (hb : lookupBuiltin name = some b) :
    (∀ env : Env, (handle env (name :: rest)).effects.launched = []) ∧
    (∀ env env2 : Env, env.createOk = env2.createOk →
      env.writeOk = env2.writeOk → env.writeErr = env2.writeErr →
      env.chdir = env2.chdir →
      (∀ m, m ≠ name → find_in_path env m = find_in_path env2 m) →
      handle env (name :: rest) = handle env2 (name :: rest)) := by
  have hop := lookupBuiltin_not_op hb
  have hce := cmdEnd_cons_ne_zero rest hop
  constructor
  · intro env
    simp only [handle]
    rw [if_neg hce, hb]
    cases houtf : outputFile (name :: rest) with
    | some f =>
      by_cases hc : env.createOk f
      · by_cases hw : env.writeOk f
        · simp [houtf, hc, hw, HandleResult.effects]
        · simp [houtf, hc, hw, HandleResult.effects]
      · simp [houtf, hc, HandleResult.effects]
    | none =>
      by_cases he : (runBuiltin env b
          (String.intercalate " " (argSpan (name :: rest)))).exited
      · simp [houtf, he, HandleResult.effects]
      · simp [houtf, he, HandleResult.effects]
  · intro env env2 hco hwo hwe hch hfp
    have hrb := runBuiltin_congr env env2 b name
      (String.intercalate " " (argSpan (name :: rest))) hb hch hfp
    simp only [handle, hb, if_neg hce]
    rw [hco, hwo, hwe, hrb]

/-- C9 witness: the launched-nothing half applied at the echo builtin in a
concrete environment. -/
theorem C9_witness : (handle env0 ["echo", "hi"]).effects.launched = [] :=
  (C9_builtin_precedence "echo" Builtin.echo ["hi"] rfl).1 env0

end Shellob
